import Mathlib

/-!
Verification of the real-time messaging subsystem of the fithub backend.

The definitions below are a shallow embedding of the Python source:
  * `app/core/websocket_manager.py`  — the connection registry,
  * `app/api/ws.py`                  — the WebSocket delivery protocol handler,
  * `app/api/client/conversations.py` and `app/api/coach/conversations.py`
                                     — the REST facade.

Database rows become Lean structures, the relational store becomes lists of
rows threaded through each operation, SQL `NOW()` becomes an explicit `now`
parameter, and Python falsiness checks (`if not conversation_id`) are modelled
by `truthyNat` / `truthyStr`.  The `users` table (display names, avatars) is
not modelled: no verified property depends on it.
-/

namespace Fithub

/-- Sender roles.  The source stores them as the strings `client` / `coach`
in the `sender_type` column; membership-derived, never caller supplied. -/
inductive Role
  | client
  | coach
  deriving DecidableEq

/-- A row of the `messages` table. -/
structure Message where
  id : Nat
  conversationId : Nat
  senderType : Role
  senderUserId : Nat
  body : Option String
  messageType : String
  mediaUrl : Option String
  mediaMetadata : Option String
  createdAt : Nat
  readAt : Option Nat
  deriving DecidableEq

/-- A row of the `conversations` table. -/
structure Conversation where
  id : Nat
  clientUserId : Nat
  coachUserId : Nat
  subscriptionId : Option Nat
  updatedAt : Nat
  deriving DecidableEq

/-- A row of the `subscriptions` table (the fields messaging reads). -/
structure Subscription where
  id : Nat
  clientUserId : Nat
  coachUserId : Nat
  status : String
  endsAt : Option Nat
  purchasedAt : Option Nat
  deriving DecidableEq

/-- The relational store as seen by the messaging subsystem. -/
structure DB where
  conversations : List Conversation
  messages : List Message
  subscriptions : List Subscription
  nextConversationId : Nat
  nextMessageId : Nat
  deriving DecidableEq

/-- Python truthiness of an optional integer: `None` and `0` are falsy. -/
def truthyNat : Option Nat → Bool
  | none => false
  | some n => n != 0

/-- Python truthiness of an optional string: `None` and `""` are falsy. -/
def truthyStr : Option String → Bool
  | none => false
  | some s => s != ""

/-! ## Connection registry (`app/core/websocket_manager.py`)

`ConnectionManager.active_connections : Dict[int, Set[WebSocket]]` is an
insertion-ordered map from user id to the set of live transport handles;
handles are modelled as naturals, the dict as an association list. -/

/-- The `active_connections` dict. -/
abbrev Registry := List (Nat × Finset Nat)

/-- Dict lookup: first entry with the given key. -/
def regLookup : Registry → Nat → Option (Finset Nat)
  | [], _ => none
  | (k, v) :: rest, u => if k = u then some v else regLookup rest u

/-- Dict assignment: replace the value under the key, or append a new entry
(Python dicts keep insertion order). -/
def regSet : Registry → Nat → Finset Nat → Registry
  | [], u, s => [(u, s)]
  | (k, v) :: rest, u, s => if k = u then (u, s) :: rest else (k, v) :: regSet rest u s

/-- Dict deletion (`del map[user_id]`). -/
def regDel : Registry → Nat → Registry
  | [], _ => []
  | (k, v) :: rest, u => if k = u then rest else (k, v) :: regDel rest u

/-- `ConnectionManager.connect`: ensure a set exists for the user and add the
handle to it. -/
def connect (r : Registry) (u ws : Nat) : Registry :=
  regSet r u (insert ws ((regLookup r u).getD ∅))

/-- `ConnectionManager.disconnect`: discard the handle; if the user's set
becomes empty, delete the user's entry entirely. -/
def disconnect (r : Registry) (u ws : Nat) : Registry :=
  match regLookup r u with
  | none => r
  | some s =>
    let s' := s.erase ws
    if s' = ∅ then regDel r u else regSet r u s'

/-- `ConnectionManager.send_to_user`: push to every handle in the user's set;
handles in `dead` fail the push and are discarded from the set afterwards
(the entry is kept, possibly now holding the empty set).  Returns the new
registry and the set of handles that received the payload. -/
def sendToUser (r : Registry) (u : Nat) (dead : Finset Nat) : Registry × Finset Nat :=
  match regLookup r u with
  | none => (r, ∅)
  | some s => (regSet r u (s \ dead), s \ dead)

/-- `ConnectionManager.is_online`: the key is present and its set is
non-empty. -/
def isOnline (r : Registry) (u : Nat) : Bool :=
  match regLookup r u with
  | none => false
  | some s => s.card > 0

/-- One registry operation, for reasoning about operation sequences. -/
inductive RegOp
  | register (u ws : Nat)
  | unregister (u ws : Nat)
  | deliver (u : Nat) (dead : Finset Nat)
  deriving DecidableEq

/-- Apply one registry operation. -/
def applyRegOp (r : Registry) : RegOp → Registry
  | .register u ws => connect r u ws
  | .unregister u ws => disconnect r u ws
  | .deliver u dead => (sendToUser r u dead).1

/-- Run a sequence of registry operations from the empty registry. -/
def applyRegOps (ops : List RegOp) : Registry := ops.foldl applyRegOp []

/-! ## Shared row-level helpers -/

/-- HTTP-level failure outcomes of the REST facade. -/
inductive ApiError
  | notFound (detail : String)
  | forbidden (detail : String)
  | badRequest (detail : String)
  | validationFailed (detail : String)
  deriving DecidableEq

instance {ε α : Type} [DecidableEq ε] [DecidableEq α] : DecidableEq (Except ε α)
  | .error x, .error y =>
    decidable_of_iff (x = y) ⟨fun h => h ▸ rfl, fun h => by injection h⟩
  | .error _, .ok _ => isFalse (fun h => by injection h)
  | .ok _, .error _ => isFalse (fun h => by injection h)
  | .ok x, .ok y =>
    decidable_of_iff (x = y) ⟨fun h => h ▸ rfl, fun h => by injection h⟩

/-- `SELECT ... FROM conversations WHERE id = conversation_id` (unique id). -/
def findConversation (db : DB) (cid : Nat) : Option Conversation :=
  db.conversations.find? (fun c => c.id == cid)

/-- `_ensure_client_conversation`: 404 unless the row exists and the caller
holds the client seat. -/
def ensureClientConversation (db : DB) (cid clientUserId : Nat) :
    Except ApiError Conversation :=
  match findConversation db cid with
  | none => .error (.notFound "Conversation not found")
  | some c =>
    if c.clientUserId = clientUserId then .ok c
    else .error (.notFound "Conversation not found")

/-- `_ensure_coach_conversation`: 404 unless the row exists and the caller
holds the coach seat. -/
def ensureCoachConversation (db : DB) (cid coachUserId : Nat) :
    Except ApiError Conversation :=
  match findConversation db cid with
  | none => .error (.notFound "Conversation not found")
  | some c =>
    if c.coachUserId = coachUserId then .ok c
    else .error (.notFound "Conversation not found")

/-- The SQL filter `status = 'active' AND (ends_at IS NULL OR ends_at > NOW())`. -/
def subscriptionActive (now : Nat) (s : Subscription) : Bool :=
  s.status == "active" && (match s.endsAt with | none => true | some e => now < e)

/-- The SQL sort key `ORDER BY purchased_at DESC NULLS LAST, id DESC`:
`subMoreRecent a b` holds when `a` sorts strictly before `b`. -/
def subMoreRecent (a b : Subscription) : Bool :=
  match a.purchasedAt, b.purchasedAt with
  | some x, some y => decide (y < x) || (decide (x = y) && decide (b.id < a.id))
  | some _, none => true
  | none, some _ => false
  | none, none => decide (b.id < a.id)

/-- `_get_client_active_coach`: the client's active, unexpired subscription
that sorts first under `ORDER BY purchased_at DESC NULLS LAST, id DESC`. -/
def getClientActiveCoach (db : DB) (now clientUserId : Nat) : Option Subscription :=
  (db.subscriptions.filter
      (fun s => s.clientUserId == clientUserId && subscriptionActive now s)).foldl
    (fun acc s =>
      match acc with
      | none => some s
      | some a => if subMoreRecent s a then some s else some a)
    none

/-- The `INSERT ... ON CONFLICT (client_user_id, coach_user_id) DO UPDATE SET
updated_at = NOW() RETURNING ...` upsert shared by every conversation-creation
path.  On conflict only `updated_at` changes; otherwise a fresh row is
appended with the next conversation id. -/
def upsertConversation (db : DB) (clientId coachId : Nat) (subId : Option Nat)
    (now : Nat) : DB × Conversation :=
  match db.conversations.find?
      (fun c => c.clientUserId == clientId && c.coachUserId == coachId) with
  | some c =>
    let c' : Conversation := { c with updatedAt := now }
    ({ db with
        conversations := db.conversations.map
          (fun x =>
            if x.clientUserId == clientId && x.coachUserId == coachId then
              { x with updatedAt := now }
            else x) },
     c')
  | none =>
    let c : Conversation :=
      { id := db.nextConversationId, clientUserId := clientId,
        coachUserId := coachId, subscriptionId := subId, updatedAt := now }
    ({ db with
        conversations := db.conversations ++ [c],
        nextConversationId := db.nextConversationId + 1 },
     c)

/-! ## REST facade: conversation creation -/

/-- `POST /client/conversations` (`create_client_conversation`).  Python's
`if not coach_user_id` treats an absent or zero coach id as "no target": the
most recent active subscription then supplies the coach (400 when none);
with an explicit target, a qualifying subscription is required (403 when
none).  Either way the conversation is upserted on the (client, coach) pair. -/
def createClientConversation (db : DB) (now clientUserId : Nat)
    (bodyCoach : Option Nat) : DB × Except ApiError Conversation :=
  if truthyNat bodyCoach = false then
    match getClientActiveCoach db now clientUserId with
    | none => (db, .error (.badRequest "No active subscription with a coach"))
    | some sub =>
      let r := upsertConversation db clientUserId sub.coachUserId (some sub.id) now
      (r.1, .ok r.2)
  else
    let coachId := bodyCoach.getD 0
    match db.subscriptions.find?
        (fun s => s.clientUserId == clientUserId && s.coachUserId == coachId &&
          subscriptionActive now s) with
    | none => (db, .error (.forbidden "No active subscription with this coach"))
    | some sub =>
      let r := upsertConversation db clientUserId coachId (some sub.id) now
      (r.1, .ok r.2)

/-- `POST /coach/conversations` (`create_coach_conversation`): 403 unless the
named client has an active, unexpired subscription with this coach, then the
same upsert. -/
def createCoachConversation (db : DB) (now coachUserId clientUserId : Nat) :
    DB × Except ApiError Conversation :=
  match db.subscriptions.find?
      (fun s => s.clientUserId == clientUserId && s.coachUserId == coachUserId &&
        subscriptionActive now s) with
  | none =>
    (db, .error (.forbidden "Client does not have an active subscription with you"))
  | some sub =>
    let r := upsertConversation db clientUserId coachUserId (some sub.id) now
    (r.1, .ok r.2)

/-! ## REST facade: sending messages -/

/-- The whitespace characters Python's `str.strip()` removes. -/
def pyWhitespace (c : Char) : Bool :=
  c == ' ' || c == '\t' || c == '\n' || c == '\r' || c == '\x0b' || c == '\x0c'

/-- Python's `str.strip()`: drop leading and trailing whitespace.  (Defined
over the character list so that concrete runs reduce in the kernel.) -/
def pyStrip (s : String) : String :=
  String.mk (((s.data.dropWhile pyWhitespace).reverse.dropWhile pyWhitespace).reverse)

/-- The request body of the REST send endpoints after pydantic validation:
`body` is trimmed with the empty string normalised to `None`, and
`message_type` has been checked to be `text` or `image`. -/
structure SendBody where
  body : Option String
  messageType : String
  mediaUrl : Option String
  mediaMetadata : Option String
  deriving DecidableEq

/-- The pydantic validators of `SendMessageBody`: trim the body (empty
becomes `None`), default `message_type` to `text` and reject anything other
than `text` / `image` with a validation error. -/
def mkSendBody (rawBody : Option String) (rawType : Option String)
    (murl mmeta : Option String) : Except ApiError SendBody :=
  let t := rawType.getD "text"
  if t != "text" && t != "image" then
    .error (.validationFailed "message_type must be text or image")
  else
    let b := match rawBody with
      | none => none
      | some s => if pyStrip s = "" then none else some (pyStrip s)
    .ok { body := b, messageType := t, mediaUrl := murl, mediaMetadata := mmeta }

/-- `POST /client/conversations/id/messages` (`send_client_message`): 404
unless the caller holds the client seat, 400 for a text message without a
body or an image message without a media URL, then
`INSERT INTO messages (..., created_at, read_at) VALUES (..., NOW(), NOW())`
— note the row is born with `read_at = NOW()`, per the endpoint's own
docstring. -/
def sendClientMessage (db : DB) (now clientUserId cid : Nat) (body : SendBody) :
    DB × Except ApiError Message :=
  match ensureClientConversation db cid clientUserId with
  | .error e => (db, .error e)
  | .ok _ =>
    if body.messageType == "text" && !truthyStr body.body then
      (db, .error (.badRequest "body cannot be empty for text messages"))
    else if body.messageType == "image" && !truthyStr body.mediaUrl then
      (db, .error (.badRequest "media_url required for image messages"))
    else
      let m : Message :=
        { id := db.nextMessageId, conversationId := cid, senderType := .client,
          senderUserId := clientUserId, body := body.body,
          messageType := body.messageType, mediaUrl := body.mediaUrl,
          mediaMetadata := body.mediaMetadata, createdAt := now,
          readAt := some now }
      ({ db with
          messages := db.messages ++ [m]
          nextMessageId := db.nextMessageId + 1 },
       .ok m)

/-- `POST /coach/conversations/id/messages` (`send_coach_message`): same
checks from the coach seat; the insert names no `read_at` column, so the row
is born unread. -/
def sendCoachMessage (db : DB) (now coachUserId cid : Nat) (body : SendBody) :
    DB × Except ApiError Message :=
  match ensureCoachConversation db cid coachUserId with
  | .error e => (db, .error e)
  | .ok _ =>
    if body.messageType == "text" && !truthyStr body.body then
      (db, .error (.badRequest "body cannot be empty for text messages"))
    else if body.messageType == "image" && !truthyStr body.mediaUrl then
      (db, .error (.badRequest "media_url required for image messages"))
    else
      let m : Message :=
        { id := db.nextMessageId, conversationId := cid, senderType := .coach,
          senderUserId := coachUserId, body := body.body,
          messageType := body.messageType, mediaUrl := body.mediaUrl,
          mediaMetadata := body.mediaMetadata, createdAt := now,
          readAt := none }
      ({ db with
          messages := db.messages ++ [m]
          nextMessageId := db.nextMessageId + 1 },
       .ok m)

/-! ## Marking messages read -/

/-- The WHERE clause of the shared read-receipt UPDATE: the row has the given
id, lives in the given conversation, was sent by `senderRole`, and is still
unread. -/
def msgMatchesRead (mid cid : Nat) (senderRole : Role) (m : Message) : Bool :=
  m.id == mid && m.conversationId == cid && m.senderType == senderRole &&
    m.readAt == none

/-- `UPDATE messages SET read_at = NOW() WHERE ... RETURNING ...`: returns the
updated table and the matched row (as it was selected). -/
def markMessagesRead (msgs : List Message) (mid cid : Nat) (senderRole : Role)
    (now : Nat) : List Message × Option Message :=
  (msgs.map
      (fun m =>
        if msgMatchesRead mid cid senderRole m then { m with readAt := some now }
        else m),
   msgs.find? (msgMatchesRead mid cid senderRole))

/-- `PATCH .../messages/id/read` for the client (`mark_client_message_read`):
404 unless the caller holds the client seat; the UPDATE targets unread
messages sent by the coach; a miss raises 404 "Message not found or already
read" (the transaction is not committed, so the store is unchanged). -/
def markClientMessageRead (db : DB) (now clientUserId cid mid : Nat) :
    DB × Except ApiError Unit :=
  match ensureClientConversation db cid clientUserId with
  | .error e => (db, .error e)
  | .ok _ =>
    let r := markMessagesRead db.messages mid cid .coach now
    match r.2 with
    | none => (db, .error (.notFound "Message not found or already read"))
    | some _ => ({ db with messages := r.1 }, .ok ())

/-- `PATCH .../messages/id/read` for the coach (`mark_coach_message_read`). -/
def markCoachMessageRead (db : DB) (now coachUserId cid mid : Nat) :
    DB × Except ApiError Unit :=
  match ensureCoachConversation db cid coachUserId with
  | .error e => (db, .error e)
  | .ok _ =>
    let r := markMessagesRead db.messages mid cid .client now
    match r.2 with
    | none => (db, .error (.notFound "Message not found or already read"))
    | some _ => ({ db with messages := r.1 }, .ok ())

/-! ## WebSocket delivery protocol handler (`app/api/ws.py`) -/

/-- Outbound frames; `newMessage`, `typing` and `messageRead` are pushed
through the connection registry, `pong` and `connected` are written directly
to the originating socket. -/
inductive WsPayload
  | newMessage (cid : Nat) (m : Message)
  | typingInd (cid uid : Nat)
  | messageRead (cid mid : Nat)
  | pong
  | connected (uid : Nat) (convIds : List Nat)
  deriving DecidableEq

/-- The `body = str(body).strip() if body else None` normalisation of
`_handle_send_message`. -/
def wsStoredBody (body : Option String) : Option String :=
  if truthyStr body then some (pyStrip (body.getD "")) else none

/-- `_handle_send_message`: validate the payload shape, verify the sender
occupies a seat of the conversation, derive the sender role from the seats,
insert the message and push it to both participants.  Returns the new store
and the `send_to_user` calls made (user id, payload). -/
def wsHandleSendMessage (db : DB) (now senderId : Nat) (_senderRole : String)
    (cid : Option Nat) (body : Option String) (messageType : Option String)
    (mediaUrl mediaMetadata : Option String) :
    DB × List (Nat × WsPayload) :=
  let mtype := messageType.getD "text"
  if !truthyNat cid then (db, [])
  else if mtype == "text" && pyStrip (body.getD "") == "" then (db, [])
  else if mtype == "image" && !truthyStr mediaUrl then (db, [])
  else
    let c := cid.getD 0
    match findConversation db c with
    | none => (db, [])
    | some conv =>
      if !(senderId == conv.clientUserId || senderId == conv.coachUserId) then
        (db, [])
      else
        let senderType : Role :=
          if senderId == conv.coachUserId then .coach else .client
        let recipientId :=
          if senderId == conv.coachUserId then conv.clientUserId
          else conv.coachUserId
        let m : Message :=
          { id := db.nextMessageId, conversationId := c, senderType := senderType,
            senderUserId := senderId, body := wsStoredBody body,
            messageType := mtype, mediaUrl := mediaUrl,
            mediaMetadata := mediaMetadata, createdAt := now, readAt := none }
        ({ db with
            messages := db.messages ++ [m]
            nextMessageId := db.nextMessageId + 1 },
         [(senderId, .newMessage c m), (recipientId, .newMessage c m)])

/-- `_handle_typing`: verify membership, then push a typing indicator to the
other participant only.  No persistence. -/
def wsHandleTyping (db : DB) (senderId : Nat) (cid : Option Nat) :
    List (Nat × WsPayload) :=
  if !truthyNat cid then []
  else
    let c := cid.getD 0
    match findConversation db c with
    | none => []
    | some conv =>
      if !(senderId == conv.clientUserId || senderId == conv.coachUserId) then []
      else
        let recipientId :=
          if senderId == conv.coachUserId then conv.clientUserId
          else conv.coachUserId
        [(recipientId, .typingInd c senderId)]

/-- `_handle_read`: no membership lookup at all — the UPDATE filters only on
message id, conversation id, the sender type opposite to the caller's role,
and `read_at IS NULL`; on a hit the original sender is notified. -/
def wsHandleRead (db : DB) (now _userId : Nat) (userRole : String)
    (cid mid : Option Nat) : DB × List (Nat × WsPayload) :=
  if !truthyNat cid || !truthyNat mid then (db, [])
  else
    let otherType : Role := if userRole == "coach" then .client else .coach
    let c := cid.getD 0
    let mi := mid.getD 0
    let r := markMessagesRead db.messages mi c otherType now
    match r.2 with
    | none => ({ db with messages := r.1 }, [])
    | some row =>
      ({ db with messages := r.1 }, [(row.senderUserId, .messageRead c mi)])

/-! ## The transport loop (`websocket_endpoint`)

Each inbound frame is paired with a flag saying whether a database cursor
operation raises while handling it (`_get_db` itself is assumed to succeed).
`_handle_send_message` and `_handle_read` run their cursor work inside
`try/except` blocks that log, roll back and return; `_handle_typing` has only
`try/finally`, so its exception — like a frame `receive_json` cannot parse —
escapes to the endpoint's outer `except`, which logs, unregisters the
connection and leaves the loop. -/

inductive WsEvent
  | message (cid : Option Nat) (body mtype murl mmeta : Option String)
  | typing (cid : Option Nat)
  | readReceipt (cid mid : Option Nat)
  | ping
  | unknown
  | malformed
  deriving DecidableEq

/-- Whether handling this (event, db-failure) pair raises out of the per-event
dispatch: only a malformed frame or a typing event whose handler reaches its
unguarded cursor work. -/
def fatalEvent : WsEvent × Bool → Bool
  | (.malformed, _) => true
  | (.typing cid, dbFail) => truthyNat cid && dbFail
  | _ => false

/-- One iteration of the `while True` receive loop: `none` means the
iteration raised and the loop is left; otherwise the new store, the pushes
made through the registry, and the frames written directly back. -/
def wsStep (db : DB) (now userId : Nat) (role : String) :
    WsEvent × Bool → Option (DB × List (Nat × WsPayload) × List WsPayload)
  | (.malformed, _) => none
  | (.message cid body mtype murl mmeta, dbFail) =>
    if dbFail then some (db, [], [])
    else
      let r := wsHandleSendMessage db now userId role cid body mtype murl mmeta
      some (r.1, r.2, [])
  | (.typing cid, dbFail) =>
    if truthyNat cid && dbFail then none
    else if dbFail then some (db, [], [])
    else some (db, wsHandleTyping db userId cid, [])
  | (.readReceipt cid mid, dbFail) =>
    if dbFail then some (db, [], [])
    else
      let r := wsHandleRead db now userId role cid mid
      some (r.1, r.2, [])
  | (.ping, _) => some (db, [], [.pong])
  | (.unknown, _) => some (db, [], [])

/-- The outcome of running the receive loop over a list of inbound frames. -/
structure LoopResult where
  db : DB
  pushes : List (Nat × WsPayload)
  direct : List WsPayload
  terminatedEarly : Bool
  deriving DecidableEq

/-- Run the receive loop: process frames in order, stopping (with
`terminatedEarly = true`) at the first one whose handling raises. -/
def runLoop (db : DB) (now userId : Nat) (role : String) :
    List (WsEvent × Bool) → LoopResult
  | [] => { db := db, pushes := [], direct := [], terminatedEarly := false }
  | e :: rest =>
    match wsStep db now userId role e with
    | none => { db := db, pushes := [], direct := [], terminatedEarly := true }
    | some (db', pushes, direct) =>
      let r := runLoop db' now userId role rest
      { db := r.db, pushes := pushes ++ r.pushes,
        direct := direct ++ r.direct, terminatedEarly := r.terminatedEarly }

/-! ## Message pagination (`list_client_messages` / `list_coach_messages`)

Both endpoints run the same query:
`WHERE conversation_id = %s [AND id < %s] ORDER BY id DESC LIMIT limit+1`,
then `has_more = len(rows) > limit` and the page is truncated to `limit`. -/

/-- `ORDER BY id DESC` as a sorting relation. -/
def byIdDesc (a b : Message) : Prop := b.id ≤ a.id

instance : DecidableRel byIdDesc := fun a b => Nat.decLe b.id a.id

instance : IsTotal Message byIdDesc := ⟨fun a b => Nat.le_total b.id a.id⟩

instance : IsTrans Message byIdDesc :=
  ⟨fun _ _ _ h1 h2 => Nat.le_trans h2 h1⟩

/-- The conversation's messages, newest-first (`ORDER BY id DESC`). -/
def convMessagesDesc (db : DB) (cid : Nat) : List Message :=
  List.insertionSort byIdDesc (db.messages.filter (fun m => m.conversationId == cid))

/-- The rows the paging query ranges over: the conversation newest-first,
restricted to ids strictly below the cursor when one is given (FastAPI's
`before` defaults to `None`, and Python's `if before:` also ignores `0`). -/
def pageCandidates (db : DB) (cid : Nat) (before : Option Nat) : List Message :=
  match before with
  | some b =>
    if b ≠ 0 then (convMessagesDesc db cid).filter (fun m => m.id < b)
    else convMessagesDesc db cid
  | none => convMessagesDesc db cid

/-- The shared page computation: fetch `limit + 1` rows, report `has_more`,
return at most `limit` rows. -/
def listPage (db : DB) (cid limit : Nat) (before : Option Nat) :
    List Message × Bool :=
  let rows := (pageCandidates db cid before).take (limit + 1)
  let hasMore := limit < rows.length
  (if hasMore then rows.take limit else rows, hasMore)

/-- `GET /client/conversations/id/messages`: FastAPI rejects a limit outside
`[1, 100]`, membership is enforced by `_ensure_client_conversation`, then the
shared page query runs. -/
def listClientMessages (db : DB) (clientUserId cid limit : Nat)
    (before : Option Nat) : Except ApiError (List Message × Bool) :=
  if limit < 1 ∨ 100 < limit then .error (.validationFailed "limit out of range")
  else
    match ensureClientConversation db cid clientUserId with
    | .error e => .error e
    | .ok _ => .ok (listPage db cid limit before)

/-- `GET /coach/conversations/id/messages`: the coach-seat twin. -/
def listCoachMessages (db : DB) (coachUserId cid limit : Nat)
    (before : Option Nat) : Except ApiError (List Message × Bool) :=
  if limit < 1 ∨ 100 < limit then .error (.validationFailed "limit out of range")
  else
    match ensureCoachConversation db cid coachUserId with
    | .error e => .error e
    | .ok _ => .ok (listPage db cid limit before)

/-- The pagination round-trip a client performs: start with no cursor and,
while `has_more`, request the next page with `before` set to the oldest
message id seen so far (the last entry of the newest-first page).  `fuel`
bounds the number of pages. -/
def collectPages (db : DB) (cid limit : Nat) :
    Option Nat → Nat → List Message
  | _, 0 => []
  | before, fuel + 1 =>
    let r := listPage db cid limit before
    if r.2 then
      match r.1.getLast? with
      | some m => r.1 ++ collectPages db cid limit (some m.id) fuel
      | none => r.1
    else r.1

/-! ## Conversation listing (`list_client_conversations`) -/

/-- One row of the client's conversation-listing response (the coach's
display name, which lives in the unmodelled `users` table, is omitted). -/
structure ConvListItem where
  id : Nat
  coachUserId : Nat
  lastMessagePreview : Option String
  lastMessageAt : Option Nat
  unreadCount : Nat
  deriving DecidableEq

/-- The correlated subquery
`SELECT ... FROM messages WHERE conversation_id = c.id ORDER BY created_at
DESC LIMIT 1`: the latest message of the conversation (later rows win ties on
`created_at`, matching insertion order). -/
def lastMessage (db : DB) (cid : Nat) : Option Message :=
  (db.messages.filter (fun m => m.conversationId == cid)).foldl
    (fun acc m =>
      match acc with
      | none => some m
      | some a => if a.createdAt ≤ m.createdAt then some m else some a)
    none

/-- The preview column: image messages render as the fixed placeholder
`[Foto]`, text messages as their body (possibly SQL NULL). -/
def previewOf (m : Message) : Option String :=
  if m.messageType == "image" then some "[Foto]" else m.body

/-- The endpoint's Python post-processing of the preview:
`(preview or "")[:100] if preview else None`. -/
def previewOut (p : Option String) : Option String :=
  match p with
  | none => none
  | some s => if s = "" then none else some (s.take 100)

/-- One listing row computed from the store. -/
def mkConvItem (db : DB) (c : Conversation) : ConvListItem :=
  { id := c.id
    coachUserId := c.coachUserId
    lastMessagePreview := previewOut ((lastMessage db c.id).bind previewOf)
    lastMessageAt := (lastMessage db c.id).map (fun m => m.createdAt)
    unreadCount :=
      (db.messages.filter
        (fun m => m.conversationId == c.id && m.senderType == Role.coach &&
          m.readAt == none)).length }

/-- `ORDER BY last_message_at DESC NULLS LAST` on listing rows. -/
def byLastMessageDesc (a b : ConvListItem) : Prop :=
  match a.lastMessageAt, b.lastMessageAt with
  | some x, some y => y ≤ x
  | some _, none => True
  | none, some _ => False
  | none, none => True

instance : DecidableRel byLastMessageDesc := fun a b => by
  unfold byLastMessageDesc
  cases a.lastMessageAt <;> cases b.lastMessageAt <;> infer_instance

/-- `GET /client/conversations` (`list_client_conversations`): list the
client's conversations; when there are none and the client holds an active
subscription, the call itself upserts a conversation with that subscription's
coach and returns the single fresh row with NULL preview, NULL timestamp and
zero unread count. -/
def listClientConversations (db : DB) (now clientUserId : Nat) :
    DB × List ConvListItem :=
  let base := db.conversations.filter (fun c => c.clientUserId == clientUserId)
  let rows := List.insertionSort byLastMessageDesc (base.map (mkConvItem db))
  if rows.isEmpty then
    match getClientActiveCoach db now clientUserId with
    | none => (db, [])
    | some sub =>
      let r := upsertConversation db clientUserId sub.coachUserId (some sub.id) now
      (r.1,
       [{ id := r.2.id, coachUserId := r.2.coachUserId,
          lastMessagePreview := none, lastMessageAt := none, unreadCount := 0 }])
  else (db, rows)

/-! ## System-level send step (store + registry)

A successful WebSocket send calls `manager.send_to_user` for the sender and
the recipient; the two REST send endpoints never touch the manager, so a REST
send produces no deliveries at all.  Transports are assumed healthy here
(`dead = ∅`), so each push reaches every live handle of its target user. -/

/-- Expand user-level pushes into per-handle deliveries through the registry. -/
def deliverAll (reg : Registry) (pushes : List (Nat × WsPayload)) :
    List (Nat × WsPayload) :=
  pushes.flatMap
    (fun up => (((regLookup reg up.1).getD ∅).sort (· ≤ ·)).map (fun h => (h, up.2)))

/-- A send arriving over one of the three channels. -/
inductive SendOp
  | viaWs (senderId : Nat) (role : String) (cid : Option Nat)
      (body mtype murl mmeta : Option String)
  | viaRestClient (clientUserId cid : Nat) (body : SendBody)
  | viaRestCoach (coachUserId cid : Nat) (body : SendBody)
  deriving DecidableEq

/-- Run one send against the store and registry, returning the new store and
the per-handle deliveries that follow a successful persist. -/
def sendStep (db : DB) (reg : Registry) (now : Nat) :
    SendOp → DB × List (Nat × WsPayload)
  | .viaWs s role cid body mtype murl mmeta =>
    let r := wsHandleSendMessage db now s role cid body mtype murl mmeta
    (r.1, deliverAll reg r.2)
  | .viaRestClient uid cid body => ((sendClientMessage db now uid cid body).1, [])
  | .viaRestCoach uid cid body => ((sendCoachMessage db now uid cid body).1, [])

/-- At most one conversation row per (client, coach) pair — the uniqueness
the `ON CONFLICT (client_user_id, coach_user_id)` constraint maintains. -/
def pairUnique (l : List Conversation) : Prop :=
  l.Pairwise (fun a b => ¬(a.clientUserId = b.clientUserId ∧ a.coachUserId = b.coachUserId))

/-! ## Concrete fixtures used by counterexamples and witnesses -/

/-- Conversation 1 between client 10 and coach 20. -/
def convFx : Conversation :=
  { id := 1, clientUserId := 10, coachUserId := 20, subscriptionId := some 1,
    updatedAt := 0 }

/-- Message 5 in conversation 1, sent by the coach, still unread. -/
def msgFx : Message :=
  { id := 5, conversationId := 1, senderType := .coach, senderUserId := 20,
    body := some "hello", messageType := "text", mediaUrl := none,
    mediaMetadata := none, createdAt := 0, readAt := none }

/-- A store holding conversation 1 and the unread coach message 5. -/
def dbFx : DB :=
  { conversations := [convFx], messages := [msgFx], subscriptions := [],
    nextConversationId := 2, nextMessageId := 6 }

/-- The same store with message 5 already read at time 3. -/
def dbReadFx : DB :=
  { dbFx with messages := [{ msgFx with readAt := some 3 }] }

/-- An active, unexpired subscription linking client 10 and coach 20. -/
def subFx : Subscription :=
  { id := 1, clientUserId := 10, coachUserId := 20, status := "active",
    endsAt := none, purchasedAt := some 50 }

/-- A store with the active subscription but no conversations yet. -/
def dbSubFx : DB :=
  { conversations := [], messages := [], subscriptions := [subFx],
    nextConversationId := 1, nextMessageId := 1 }

/-- A valid text request body. -/
def bodyTextFx : SendBody :=
  { body := some "Hi coach", messageType := "text", mediaUrl := none,
    mediaMetadata := none }

/-- Registry where client 10 owns handle 100 and coach 20 owns handle 200. -/
def regFx : Registry := [(10, {100}), (20, {200})]

/-- A store with three messages (ids 1, 2, 3, appended out of order) in
conversation 1, for exercising pagination. -/
def dbPageFx : DB :=
  { conversations := [convFx]
    messages :=
      [{ msgFx with id := 3, createdAt := 3 },
       { msgFx with id := 1, createdAt := 1 },
       { msgFx with id := 2, createdAt := 2 }]
    subscriptions := []
    nextConversationId := 2
    nextMessageId := 4 }

/-! ## Registry lemmas -/

theorem regLookup_regSet_self (r : Registry) (u : Nat) (s : Finset Nat) :
    regLookup (regSet r u s) u = some s := by
  induction r with
  | nil => simp [regSet, regLookup]
  | cons hd tl ih =>
    obtain ⟨k, v⟩ := hd
    by_cases h : k = u
    · simp [regSet, regLookup, h]
    · simp [regSet, regLookup, h, ih]

theorem regLookup_eq_none_of_not_mem (r : Registry) (u : Nat)
    (h : u ∉ r.map Prod.fst) : regLookup r u = none := by
  induction r with
  | nil => simp [regLookup]
  | cons hd tl ih =>
    obtain ⟨k, v⟩ := hd
    simp only [List.map_cons, List.mem_cons] at h
    push_neg at h
    have hku : ¬(k = u) := fun hc => h.1 hc.symm
    simp only [regLookup, if_neg hku]
    exact ih h.2

theorem regLookup_regDel_self (r : Registry) (u : Nat)
    (h : (r.map Prod.fst).Nodup) : regLookup (regDel r u) u = none := by
  induction r with
  | nil => simp [regDel, regLookup]
  | cons hd tl ih =>
    obtain ⟨k, v⟩ := hd
    simp only [List.map_cons, List.nodup_cons] at h
    by_cases hk : k = u
    · subst hk
      simp only [regDel, if_pos rfl]
      exact regLookup_eq_none_of_not_mem tl k h.1
    · simp only [regDel, if_neg hk, regLookup, if_neg hk]
      exact ih h.2

/-- C10: `is_online(u)` is true exactly when the registry maps `u` to a
non-empty connection set, hence false over any operation sequence whenever
`u` owns no live handle; unregistering a user's last connection removes the
user's entry entirely, while pruning every handle as dead during a delivery
leaves an empty set under the key — and in both states `is_online` is
false. -/
theorem c10_registry_online_iff_nonempty :
    (∀ (r : Registry) (u : Nat),
        isOnline r u = true ↔ ((regLookup r u).getD ∅).Nonempty)
    ∧ (∀ (ops : List RegOp) (u : Nat),
        (regLookup (applyRegOps ops) u).getD ∅ = ∅ →
        isOnline (applyRegOps ops) u = false)
    ∧ (∀ (r : Registry) (u ws : Nat), (r.map Prod.fst).Nodup →
        regLookup r u = some {ws} →
        regLookup (disconnect r u ws) u = none)
    ∧ (∀ (r : Registry) (u : Nat) (s dead : Finset Nat),
        regLookup r u = some s → s ⊆ dead →
        regLookup ((sendToUser r u dead).1) u = some ∅ ∧
        isOnline ((sendToUser r u dead).1) u = false) := by
  have honline : ∀ (r : Registry) (u : Nat),
      isOnline r u = true ↔ ((regLookup r u).getD ∅).Nonempty := by
    intro r u
    unfold isOnline
    cases h : regLookup r u with
    | none => simp
    | some s => simp [Finset.card_pos]
  refine ⟨honline, ?_, ?_, ?_⟩
  · intro ops u hempty
    by_contra hc
    have : isOnline (applyRegOps ops) u = true := by
      cases h : isOnline (applyRegOps ops) u
      · exact absurd h hc
      · rfl
    have := (honline _ u).mp this
    rw [hempty] at this
    exact Finset.not_nonempty_empty this
  · intro r u ws hnd hlu
    unfold disconnect
    rw [hlu]
    have herase : ({ws} : Finset Nat).erase ws = ∅ := by
      ext a
      simp [Finset.mem_erase]
    simp only [herase, if_pos rfl]
    exact regLookup_regDel_self r u hnd
  · intro r u s dead hlu hsub
    have hsd : s \ dead = ∅ := Finset.sdiff_eq_empty_iff_subset.mpr hsub
    unfold sendToUser
    rw [hlu]
    simp only [hsd]
    constructor
    · exact regLookup_regSet_self r u ∅
    · unfold isOnline
      rw [regLookup_regSet_self r u ∅]
      simp

/-- Witness for C10 at concrete inputs: a user with the single handle `7`
goes offline and loses its entry on unregister; delivering with that handle
dead keeps the entry but empties the set; and after register-then-unregister
the user is offline. -/
theorem c10_registry_online_iff_nonempty_witness :
    regLookup (disconnect [(4, {7})] 4 7) 4 = none ∧
    regLookup ((sendToUser [(4, {7})] 4 {7}).1) 4 = some ∅ ∧
    isOnline ((sendToUser [(4, {7})] 4 {7}).1) 4 = false ∧
    isOnline (applyRegOps [RegOp.register 4 7, RegOp.unregister 4 7]) 4 = false :=
  ⟨c10_registry_online_iff_nonempty.2.2.1 [(4, {7})] 4 7 (by decide) (by decide),
   (c10_registry_online_iff_nonempty.2.2.2 [(4, {7})] 4 {7} {7} (by decide)
      (by decide)).1,
   (c10_registry_online_iff_nonempty.2.2.2 [(4, {7})] 4 {7} {7} (by decide)
      (by decide)).2,
   c10_registry_online_iff_nonempty.2.1
     [RegOp.register 4 7, RegOp.unregister 4 7] 4 (by decide)⟩

/-! ## C1: membership and the read event -/

/-- C1: the WebSocket `read` handler performs no membership check.  User 99
occupies no seat of conversation 1, yet their `read` event persists a state
change — message 5's read timestamp is set to now — and fans out a
`message_read` notification to the original sender.  (By contrast the
`message` and `typing` handlers do verify membership before any effect.) -/
theorem c1_nonmember_read_sets_read_timestamp :
    (99 ≠ convFx.clientUserId ∧ 99 ≠ convFx.coachUserId) ∧
    (wsHandleRead dbFx 7 99 "client" (some 1) (some 5)).1.messages =
      [{ msgFx with readAt := some 7 }] ∧
    (wsHandleRead dbFx 7 99 "client" (some 1) (some 5)).2 =
      [(20, WsPayload.messageRead 1 5)] ∧
    (wsHandleSendMessage dbFx 7 99 "client" (some 1) (some "hey") none none none) =
      (dbFx, []) ∧
    wsHandleTyping dbFx 99 (some 1) = [] := by
  decide

/-! ## C2: read timestamp at creation -/

/-- C2 counterexample: a client sending a text message over the REST facade
yields a stored row whose read timestamp is already `now` (= 7), not null —
`send_client_message` inserts `VALUES (..., NOW(), NOW())`. -/
theorem c2_counterexample_client_rest_row_born_read :
    (sendClientMessage dbFx 7 10 1 bodyTextFx).2 =
      Except.ok
        { id := 6, conversationId := 1, senderType := .client,
          senderUserId := 10, body := some "Hi coach", messageType := "text",
          mediaUrl := none, mediaMetadata := none, createdAt := 7,
          readAt := some 7 } ∧
    ((sendClientMessage dbFx 7 10 1 bodyTextFx).1.messages.map
        (fun m => m.readAt)) = [none, some 7] := by
  decide

/-! ## C3: loop isolation -/

/-- C3 counterexample: a database failure inside the `typing` handler (which
has `try/finally` but no `except`) escapes to the endpoint's outer handler
and terminates the transport loop — the subsequent `ping` is never processed
(no `pong` is emitted), although a lone `ping` does produce one. -/
theorem c3_counterexample_typing_failure_kills_loop :
    (runLoop dbFx 7 10 "client"
        [(WsEvent.typing (some 1), true), (WsEvent.ping, false)]).terminatedEarly
      = true ∧
    (runLoop dbFx 7 10 "client"
        [(WsEvent.typing (some 1), true), (WsEvent.ping, false)]).direct = [] ∧
    (runLoop dbFx 7 10 "client" [(WsEvent.ping, false)]).direct =
      [WsPayload.pong] := by
  decide

/-! ## C4: failing mark-read behaviour -/

/-- C4 counterexample: on the REST surface a failing mark is not a
false/no-op return — Scenario D's second mark of the same message raises
HTTP 404 "Message not found or already read". -/
theorem c4_counterexample_second_rest_mark_is_error :
    (markClientMessageRead dbFx 7 10 1 5).2 = Except.ok () ∧
    (markClientMessageRead (markClientMessageRead dbFx 7 10 1 5).1 8 10 1 5).2 =
      Except.error (ApiError.notFound "Message not found or already read") := by
  decide

/-! ## C5: last-activity on append -/

/-- C5 counterexample: a successful append over the connection channel (a
message row is persisted) leaves the conversation row — including its
last-activity timestamp, still 0 rather than now = 7 — completely
untouched. -/
theorem c5_counterexample_append_does_not_bump_activity :
    (wsHandleSendMessage dbFx 7 10 "client" (some 1) (some "yo") none none
        none).1.messages.length = 2 ∧
    (wsHandleSendMessage dbFx 7 10 "client" (some 1) (some "yo") none none
        none).1.conversations = [convFx] ∧
    convFx.updatedAt = 0 := by
  decide

/-! ## C6: fan-out after persist -/

/-- C6 counterexample: a REST send persists the message while both
participants are online, yet no delivery is made to any connection — the
REST endpoints never consult the connection registry. -/
theorem c6_counterexample_rest_send_no_fanout :
    isOnline regFx 10 = true ∧ isOnline regFx 20 = true ∧
    (sendStep dbFx regFx 7 (SendOp.viaRestClient 10 1 bodyTextFx)).1.messages.length
      = 2 ∧
    (sendStep dbFx regFx 7 (SendOp.viaRestClient 10 1 bodyTextFx)).2 = [] := by
  decide

/-- C5 (amended): appending a message never updates the conversation row —
all three send paths leave the `conversations` table (and hence the
last-activity timestamp) exactly as it was; only the conversation upsert
touches it. -/
theorem c5_sends_never_touch_conversations :
    (∀ db now s role cid body mtype murl mmeta,
       (wsHandleSendMessage db now s role cid body mtype murl mmeta).1.conversations
         = db.conversations)
    ∧ (∀ db now uid cid b,
        (sendClientMessage db now uid cid b).1.conversations = db.conversations)
    ∧ (∀ db now uid cid b,
        (sendCoachMessage db now uid cid b).1.conversations = db.conversations) := by
  refine ⟨?_, ?_, ?_⟩
  · intro db now s role cid body mtype murl mmeta
    unfold wsHandleSendMessage
    dsimp only
    repeat' split
    all_goals rfl
  · intro db now uid cid b
    unfold sendClientMessage
    dsimp only
    repeat' split
    all_goals rfl
  · intro db now uid cid b
    unfold sendCoachMessage
    dsimp only
    repeat' split
    all_goals rfl

/-- C2 (amended): messages persisted over the connection channel (either
sender role) and over the coach REST endpoint are created with a null read
timestamp; the client REST endpoint alone creates its rows with the read
timestamp already set to now. -/
theorem c2_read_timestamp_at_creation :
    (∀ db now s role cid body mtype murl mmeta,
       ∀ m ∈ (wsHandleSendMessage db now s role cid body mtype murl mmeta).1.messages,
         m ∈ db.messages ∨ m.readAt = none)
    ∧ (∀ db now uid cid b,
        ∀ m ∈ (sendCoachMessage db now uid cid b).1.messages,
          m ∈ db.messages ∨ m.readAt = none)
    ∧ (∀ db now uid cid b m,
        (sendCoachMessage db now uid cid b).2 = .ok m → m.readAt = none)
    ∧ (∀ db now uid cid b m,
        (sendClientMessage db now uid cid b).2 = .ok m → m.readAt = some now) := by
  refine ⟨?_, ?_, ?_, ?_⟩
  · intro db now s role cid body mtype murl mmeta m hm
    unfold wsHandleSendMessage at hm
    dsimp only at hm
    repeat' split at hm
    all_goals
      first
      | exact .inl hm
      | (rcases List.mem_append.mp hm with h | h
         · exact .inl h
         · simp only [List.mem_singleton] at h
           subst h
           exact .inr rfl)
  · intro db now uid cid b m hm
    unfold sendCoachMessage at hm
    dsimp only at hm
    repeat' split at hm
    all_goals
      first
      | exact .inl hm
      | (rcases List.mem_append.mp hm with h | h
         · exact .inl h
         · simp only [List.mem_singleton] at h
           subst h
           exact .inr rfl)
  · intro db now uid cid b m hm
    unfold sendCoachMessage at hm
    dsimp only at hm
    repeat' split at hm
    all_goals
      first
      | exact Except.noConfusion hm
      | (injection hm with h; subst h; rfl)
  · intro db now uid cid b m hm
    unfold sendClientMessage at hm
    dsimp only at hm
    repeat' split at hm
    all_goals
      first
      | exact Except.noConfusion hm
      | (injection hm with h; subst h; rfl)

/-- Witness for C2 (amended) at a concrete input: the client REST send in the
fixture store persists its row with read timestamp 7 (= now). -/
theorem c2_read_timestamp_at_creation_witness :
    (sendClientMessage dbFx 7 10 1 bodyTextFx).2 =
      Except.ok
        { id := 6, conversationId := 1, senderType := .client,
          senderUserId := 10, body := some "Hi coach", messageType := "text",
          mediaUrl := none, mediaMetadata := none, createdAt := 7,
          readAt := some 7 } ∧
    ({ id := 6, conversationId := 1, senderType := .client, senderUserId := 10,
       body := some "Hi coach", messageType := "text", mediaUrl := none,
       mediaMetadata := none, createdAt := 7,
       readAt := some 7 } : Message).readAt = some 7 :=
  ⟨by decide,
   c2_read_timestamp_at_creation.2.2.2 dbFx 7 10 1 bodyTextFx _ (by decide)⟩

/-- Handling a frame raises out of the dispatch iff the frame is malformed or
it is a typing event that reaches the typing handler's unguarded cursor
work. -/
theorem wsStep_none_iff (db : DB) (now uid : Nat) (role : String)
    (e : WsEvent × Bool) :
    wsStep db now uid role e = none ↔ fatalEvent e = true := by
  obtain ⟨ev, f⟩ := e
  cases ev <;> cases f <;> simp [wsStep, fatalEvent]

/-- C3 (amended): failures inside the `message` and `read` handlers are
contained — the event is dropped with no state change and the loop continues
— but a failure inside the `typing` handler, or a malformed frame, escapes
the dispatch and terminates the transport loop: the loop ends early exactly
when the inbound stream contains such a fatal frame. -/
theorem c3_loop_survives_message_read_failures_only :
    (∀ db now uid role evs,
       (runLoop db now uid role evs).terminatedEarly = evs.any fatalEvent)
    ∧ (∀ db now uid role cid body mtype murl mmeta,
        wsStep db now uid role (WsEvent.message cid body mtype murl mmeta, true)
          = some (db, [], []))
    ∧ (∀ db now uid role cid mid,
        wsStep db now uid role (WsEvent.readReceipt cid mid, true)
          = some (db, [], [])) := by
  refine ⟨?_, ?_, ?_⟩
  · intro db now uid role evs
    induction evs generalizing db with
    | nil => rfl
    | cons e rest ih =>
      cases h : wsStep db now uid role e with
      | none =>
        have hf : fatalEvent e = true := (wsStep_none_iff db now uid role e).mp h
        simp [runLoop, h, hf]
      | some v =>
        have hf : fatalEvent e = false := by
          cases hh : fatalEvent e
          · rfl
          · exact absurd ((wsStep_none_iff db now uid role e).mpr hh)
              (by simp [h])
        obtain ⟨db', pushes, direct⟩ := v
        simp [runLoop, h, hf, ih]
  · intro db now uid role cid body mtype murl mmeta
    simp [wsStep]
  · intro db now uid role cid mid
    simp [wsStep]

/-! ## Mark-read lemmas -/

theorem map_read_no_hit (mid cid : Nat) (role : Role) (now : Nat) :
    ∀ (msgs : List Message),
      (∀ m ∈ msgs, msgMatchesRead mid cid role m = false) →
      msgs.map
          (fun m =>
            if msgMatchesRead mid cid role m then { m with readAt := some now }
            else m)
        = msgs := by
  intro msgs h
  induction msgs with
  | nil => rfl
  | cons a l ih =>
    rw [List.map_cons, if_neg (by simp [h a (List.mem_cons_self a l)]),
      ih (fun m hm => h m (List.mem_cons_of_mem a hm))]

theorem markMessagesRead_miss (msgs : List Message) (mid cid : Nat) (role : Role)
    (now : Nat) (h : msgs.find? (msgMatchesRead mid cid role) = none) :
    markMessagesRead msgs mid cid role now = (msgs, none) := by
  unfold markMessagesRead
  rw [h, map_read_no_hit mid cid role now msgs]
  intro m hm
  have := List.find?_eq_none.mp h m hm
  simpa using this

/-- After the read-receipt UPDATE runs, no row matches its WHERE clause any
more: updated rows are no longer unread, untouched rows never matched. -/
theorem find?_after_mark (msgs : List Message) (mid cid : Nat) (role : Role)
    (now : Nat) :
    ((markMessagesRead msgs mid cid role now).1).find?
        (msgMatchesRead mid cid role) = none := by
  apply List.find?_eq_none.mpr
  intro x hx
  unfold markMessagesRead at hx
  rcases List.mem_map.mp hx with ⟨m, _, rfl⟩
  by_cases hp : msgMatchesRead mid cid role m = true
  · rw [if_pos hp]
    simp [msgMatchesRead]
  · rw [if_neg hp]
    exact hp

/-- A failing client REST mark: membership holds but no row matches the
UPDATE, so the endpoint raises the 404 and the store is unchanged. -/
theorem markClientMessageRead_miss (db : DB) (now uid cid mid : Nat)
    (c : Conversation) (hens : ensureClientConversation db cid uid = .ok c)
    (hfind : db.messages.find? (msgMatchesRead mid cid .coach) = none) :
    markClientMessageRead db now uid cid mid
      = (db, .error (.notFound "Message not found or already read")) := by
  unfold markClientMessageRead
  rw [hens]
  dsimp only
  rw [markMessagesRead_miss db.messages mid cid .coach now hfind]

/-- A successful client REST mark commits the UPDATE and returns ok. -/
theorem markClientMessageRead_hit (db : DB) (now uid cid mid : Nat)
    (c : Conversation) (m : Message)
    (hens : ensureClientConversation db cid uid = .ok c)
    (hfind : db.messages.find? (msgMatchesRead mid cid .coach) = some m) :
    markClientMessageRead db now uid cid mid
      = ({ db with
            messages := (markMessagesRead db.messages mid cid .coach now).1 },
         .ok ()) := by
  unfold markClientMessageRead
  rw [hens]
  dsimp only
  have h2 : (markMessagesRead db.messages mid cid .coach now).2 = some m := hfind
  rw [h2]

/-- C4 (amended): on the connection channel a failing read (no row matches:
not in the conversation, sent by the caller's own role, or already read) is a
silent no-op with no notification, and a read applied twice leaves the second
call a no-op with no further notification; on the REST surface a failing mark
leaves the store unchanged but raises HTTP 404 "Message not found or already
read" — an explicit error, not a false return — and Scenario D's second mark
gets that 404. -/
theorem c4_failing_mark_read_behaviour :
    (∀ db now uid role cid mid,
       db.messages.find?
           (msgMatchesRead (mid.getD 0) (cid.getD 0)
             (if role == "coach" then Role.client else Role.coach)) = none →
       wsHandleRead db now uid role cid mid = (db, []))
    ∧ (∀ db now uid cid mid e,
        (markClientMessageRead db now uid cid mid).2 = .error e →
        (markClientMessageRead db now uid cid mid).1 = db)
    ∧ (∀ db now uid cid mid c,
        ensureClientConversation db cid uid = .ok c →
        db.messages.find? (msgMatchesRead mid cid .coach) = none →
        markClientMessageRead db now uid cid mid
          = (db, .error (.notFound "Message not found or already read")))
    ∧ (∀ db now now2 uid role cid mid,
        wsHandleRead (wsHandleRead db now uid role cid mid).1 now2 uid role cid mid
          = ((wsHandleRead db now uid role cid mid).1, []))
    ∧ (∀ db now now2 uid cid mid,
        (markClientMessageRead db now uid cid mid).2 = .ok () →
        markClientMessageRead (markClientMessageRead db now uid cid mid).1
            now2 uid cid mid
          = ((markClientMessageRead db now uid cid mid).1,
             .error (.notFound "Message not found or already read"))) := by
  have hwsmiss : ∀ db now uid role cid mid,
      db.messages.find?
          (msgMatchesRead (mid.getD 0) (cid.getD 0)
            (if role == "coach" then Role.client else Role.coach)) = none →
      wsHandleRead db now uid role cid mid = (db, []) := by
    intro db now uid role cid mid h
    unfold wsHandleRead
    dsimp only
    split
    · rfl
    · rw [markMessagesRead_miss db.messages (mid.getD 0) (cid.getD 0) _ now h]
  refine ⟨hwsmiss, ?_, fun db now uid cid mid c => markClientMessageRead_miss db now uid cid mid c, ?_, ?_⟩
  · intro db now uid cid mid e h
    cases hens : ensureClientConversation db cid uid with
    | error e2 => simp [markClientMessageRead, hens]
    | ok c =>
      cases hfind : db.messages.find? (msgMatchesRead mid cid .coach) with
      | none => rw [markClientMessageRead_miss db now uid cid mid c hens hfind]
      | some m =>
        rw [markClientMessageRead_hit db now uid cid mid c m hens hfind] at h
        exact absurd h (by simp)
  · intro db now now2 uid role cid mid
    by_cases hc : (!truthyNat cid || !truthyNat mid) = true
    · simp [wsHandleRead, hc]
    · have h1 : (wsHandleRead db now uid role cid mid).1 =
          { db with
            messages :=
              (markMessagesRead db.messages (mid.getD 0) (cid.getD 0)
                (if role == "coach" then Role.client else Role.coach) now).1 } := by
        unfold wsHandleRead
        rw [if_neg (by simp_all)]
        dsimp only
        split <;> rfl
      rw [h1]
      exact hwsmiss _ now2 uid role cid mid
        (find?_after_mark db.messages (mid.getD 0) (cid.getD 0) _ now)
  · intro db now now2 uid cid mid h
    cases hens : ensureClientConversation db cid uid with
    | error e2 =>
      rw [show markClientMessageRead db now uid cid mid = (db, .error e2) from by
        unfold markClientMessageRead; rw [hens]] at h
      exact absurd h (by simp)
    | ok c =>
      cases hfind : db.messages.find? (msgMatchesRead mid cid .coach) with
      | none =>
        rw [markClientMessageRead_miss db now uid cid mid c hens hfind] at h
        exact absurd h (by simp)
      | some m =>
        rw [markClientMessageRead_hit db now uid cid mid c m hens hfind]
        exact markClientMessageRead_miss _ now2 uid cid mid c hens
          (find?_after_mark db.messages mid cid .coach now)

/-- Witness for C4 (amended) at a concrete input: marking the already-read
message 5 over REST returns the 404 and leaves the fixture store unchanged. -/
theorem c4_failing_mark_read_behaviour_witness :
    markClientMessageRead dbReadFx 7 10 1 5 =
      (dbReadFx, .error (.notFound "Message not found or already read")) :=
  c4_failing_mark_read_behaviour.2.2.1 dbReadFx 7 10 1 5 convFx (by decide)
    (by decide)

/-! ## Fan-out lemmas -/

theorem deliverAll_pair (reg : Registry) (p : WsPayload) (a b : Nat) :
    deliverAll reg [(a, p), (b, p)] =
      (((regLookup reg a).getD ∅).sort (· ≤ ·)).map (fun h => (h, p)) ++
      (((regLookup reg b).getD ∅).sort (· ≤ ·)).map (fun h => (h, p)) := by
  simp [deliverAll]

/-- C6 (amended): only the connection channel fans out after a persist — a
WebSocket send that stores a message pushes it, through the registry, to
every live connection of the sender and of the seat-derived recipient; the
two REST send endpoints never touch the registry, so a REST send produces no
deliveries at all. -/
theorem c6_fanout_on_ws_channel_only :
    (∀ db reg now s role cid body mtype murl mmeta db2 pushes,
       wsHandleSendMessage db now s role cid body mtype murl mmeta
         = (db2, pushes) →
       db2.messages ≠ db.messages →
       ∃ c m recip,
         db2.messages = db.messages ++ [m] ∧
         pushes = [(s, WsPayload.newMessage c m), (recip, WsPayload.newMessage c m)] ∧
         deliverAll reg pushes =
           (((regLookup reg s).getD ∅).sort (· ≤ ·)).map
             (fun h => (h, WsPayload.newMessage c m)) ++
           (((regLookup reg recip).getD ∅).sort (· ≤ ·)).map
             (fun h => (h, WsPayload.newMessage c m)))
    ∧ (∀ db reg now uid cid b,
        (sendStep db reg now (SendOp.viaRestClient uid cid b)).2 = [])
    ∧ (∀ db reg now uid cid b,
        (sendStep db reg now (SendOp.viaRestCoach uid cid b)).2 = [])
    ∧ (∀ db reg now s role cid body mtype murl mmeta,
        (sendStep db reg now (SendOp.viaWs s role cid body mtype murl mmeta)).2 =
          deliverAll reg
            (wsHandleSendMessage db now s role cid body mtype murl mmeta).2) := by
  refine ⟨?_, fun _ _ _ _ _ _ => rfl, fun _ _ _ _ _ _ => rfl,
    fun _ _ _ _ _ _ _ _ _ _ => rfl⟩
  intro db reg now s role cid body mtype murl mmeta db2 pushes heq hne
  unfold wsHandleSendMessage at heq
  dsimp only at heq
  repeat' split at heq
  all_goals
    first
    | (injection heq with h1 h2
       subst h1
       exact absurd rfl hne)
    | (injection heq with h1 h2
       subst h1
       subst h2
       exact ⟨_, _, _, rfl, rfl, deliverAll_pair reg _ s _⟩)

/-- Witness for C6 (amended) at a concrete input: the fixture WebSocket send
delivers the persisted message to handle 100 (the sender's) and handle 200
(the recipient's), per the theorem's characterisation. -/
theorem c6_fanout_on_ws_channel_only_witness :
    (wsHandleSendMessage dbFx 7 10 "client" (some 1) (some "yo") none none none).1.messages.length = 2 ∧
    (∃ c m recip,
      (wsHandleSendMessage dbFx 7 10 "client" (some 1) (some "yo") none none
          none).1.messages = dbFx.messages ++ [m] ∧
      (wsHandleSendMessage dbFx 7 10 "client" (some 1) (some "yo") none none
          none).2 =
        [(10, WsPayload.newMessage c m), (recip, WsPayload.newMessage c m)] ∧
      deliverAll regFx
          (wsHandleSendMessage dbFx 7 10 "client" (some 1) (some "yo") none none
            none).2 =
        (((regLookup regFx 10).getD ∅).sort (· ≤ ·)).map
          (fun h => (h, WsPayload.newMessage c m)) ++
        (((regLookup regFx recip).getD ∅).sort (· ≤ ·)).map
          (fun h => (h, WsPayload.newMessage c m))) :=
  ⟨by decide,
   c6_fanout_on_ws_channel_only.1 dbFx regFx 7 10 "client" (some 1) (some "yo")
     none none none _ _ rfl (by decide)⟩

/-! ## Conversation-creation lemmas -/

/-- The upserted conversation carries exactly the requested (client, coach)
pair, whether it was found or freshly inserted. -/
theorem upsertConversation_snd_pair (db : DB) (clientId coachId : Nat)
    (subId : Option Nat) (now : Nat) :
    (upsertConversation db clientId coachId subId now).2.clientUserId = clientId ∧
    (upsertConversation db clientId coachId subId now).2.coachUserId = coachId := by
  unfold upsertConversation
  cases hf : db.conversations.find?
      (fun c => c.clientUserId == clientId && c.coachUserId == coachId) with
  | some c =>
    have hp := List.find?_some hf
    simp only [Bool.and_eq_true, beq_iff_eq] at hp
    exact ⟨hp.1, hp.2⟩
  | none => exact ⟨rfl, rfl⟩

/-- The conversation upsert preserves the one-row-per-(client, coach)-pair
invariant the `ON CONFLICT` unique constraint maintains. -/
theorem pairUnique_upsert (db : DB) (clientId coachId : Nat)
    (subId : Option Nat) (now : Nat) (h : pairUnique db.conversations) :
    pairUnique (upsertConversation db clientId coachId subId now).1.conversations := by
  unfold upsertConversation
  cases hf : db.conversations.find?
      (fun c => c.clientUserId == clientId && c.coachUserId == coachId) with
  | some c =>
    dsimp only
    unfold pairUnique at h ⊢
    rw [List.pairwise_map]
    refine h.imp ?_
    intro a b hab
    have hpres : ∀ x : Conversation,
        ((if x.clientUserId == clientId && x.coachUserId == coachId then
            { x with updatedAt := now } else x).clientUserId = x.clientUserId) ∧
        ((if x.clientUserId == clientId && x.coachUserId == coachId then
            { x with updatedAt := now } else x).coachUserId = x.coachUserId) := by
      intro x
      split <;> exact ⟨rfl, rfl⟩
    rw [(hpres a).1, (hpres a).2, (hpres b).1, (hpres b).2]
    exact hab
  | none =>
    dsimp only
    unfold pairUnique at h ⊢
    apply List.pairwise_append.mpr
    refine ⟨h, List.pairwise_singleton _ _, ?_⟩
    intro a ha b hb
    simp only [List.mem_singleton] at hb
    subst hb
    rintro ⟨h1, h2⟩
    exact List.find?_eq_none.mp hf a ha (by simp [h1, h2])

/-- C7: with an explicit target coach, conversation creation without an
active, unexpired subscription linking the pair fails with `Forbidden` and
leaves the store untouched (both role-scoped endpoints); once a qualifying
subscription exists a retry succeeds and returns the pair's conversation; and
every creation path preserves at most one conversation row per
(client, coach) pair. -/
theorem c7_creation_gated_by_subscription :
    (∀ db now uid co, co ≠ 0 →
       (∀ s ∈ db.subscriptions,
         s.clientUserId = uid → s.coachUserId = co →
           subscriptionActive now s = false) →
       createClientConversation db now uid (some co)
         = (db, .error (.forbidden "No active subscription with this coach")))
    ∧ (∀ db now coachId clientId,
        (∀ s ∈ db.subscriptions,
          s.clientUserId = clientId → s.coachUserId = coachId →
            subscriptionActive now s = false) →
        createCoachConversation db now coachId clientId
          = (db,
             .error (.forbidden "Client does not have an active subscription with you")))
    ∧ (∀ db now uid co, co ≠ 0 →
        (∃ s ∈ db.subscriptions,
          s.clientUserId = uid ∧ s.coachUserId = co ∧
            subscriptionActive now s = true) →
        ∃ conv, (createClientConversation db now uid (some co)).2 = .ok conv ∧
          conv.clientUserId = uid ∧ conv.coachUserId = co)
    ∧ (∀ db now uid bco, pairUnique db.conversations →
        pairUnique (createClientConversation db now uid bco).1.conversations)
    ∧ (∀ db now coachId clientId, pairUnique db.conversations →
        pairUnique (createCoachConversation db now coachId clientId).1.conversations) := by
  have htr : ∀ co : Nat, co ≠ 0 → (truthyNat (some co) = false) = False := by
    intro co hco
    simp [truthyNat, hco]
  refine ⟨?_, ?_, ?_, ?_, ?_⟩
  · intro db now uid co hco hno
    unfold createClientConversation
    rw [if_neg (by simp [truthyNat, hco])]
    dsimp only
    have hfind : db.subscriptions.find?
        (fun s => s.clientUserId == uid && s.coachUserId == (some co).getD 0 &&
          subscriptionActive now s) = none := by
      apply List.find?_eq_none.mpr
      intro s hs
      simp only [Option.getD_some, Bool.and_eq_true, beq_iff_eq, not_and]
      rintro ⟨h1, h2⟩
      rw [hno s hs h1 h2]
      simp
    rw [hfind]
  · intro db now coachId clientId hno
    unfold createCoachConversation
    have hfind : db.subscriptions.find?
        (fun s => s.clientUserId == clientId && s.coachUserId == coachId &&
          subscriptionActive now s) = none := by
      apply List.find?_eq_none.mpr
      intro s hs
      simp only [Bool.and_eq_true, beq_iff_eq, not_and]
      rintro ⟨h1, h2⟩
      rw [hno s hs h1 h2]
      simp
    rw [hfind]
  · intro db now uid co hco hex
    obtain ⟨s0, hs0, h1, h2, h3⟩ := hex
    have hsome : (db.subscriptions.find?
        (fun s => s.clientUserId == uid && s.coachUserId == (some co).getD 0 &&
          subscriptionActive now s)).isSome := by
      apply List.find?_isSome.mpr
      exact ⟨s0, hs0, by simp [h1, h2, h3]⟩
    obtain ⟨sub, hsub⟩ := Option.isSome_iff_exists.mp hsome
    unfold createClientConversation
    rw [if_neg (by simp [truthyNat, hco])]
    dsimp only
    rw [hsub]
    refine ⟨(upsertConversation db uid ((some co).getD 0) (some sub.id) now).2,
      rfl, ?_, ?_⟩
    · exact (upsertConversation_snd_pair db uid _ (some sub.id) now).1
    · exact (upsertConversation_snd_pair db uid _ (some sub.id) now).2
  · intro db now uid bco h
    unfold createClientConversation
    dsimp only
    repeat' split
    all_goals first
      | exact h
      | exact pairUnique_upsert _ _ _ _ _ h
  · intro db now coachId clientId h
    unfold createCoachConversation
    dsimp only
    repeat' split
    all_goals first
      | exact h
      | exact pairUnique_upsert _ _ _ _ _ h

/-- Witness for C7 at concrete inputs: with no subscription on file both
endpoints refuse with 403 and return the store unchanged, and the creations
preserve pair-uniqueness on the fixture store. -/
theorem c7_creation_gated_by_subscription_witness :
    createClientConversation dbFx 7 10 (some 20)
      = (dbFx, .error (.forbidden "No active subscription with this coach")) ∧
    createCoachConversation dbFx 7 20 10
      = (dbFx,
         .error (.forbidden "Client does not have an active subscription with you")) ∧
    pairUnique (createClientConversation dbSubFx 7 10 (some 20)).1.conversations :=
  ⟨c7_creation_gated_by_subscription.1 dbFx 7 10 20 (by decide) (by decide),
   c7_creation_gated_by_subscription.2.1 dbFx 7 20 10 (by decide),
   c7_creation_gated_by_subscription.2.2.2.1 dbSubFx 7 10 (some 20)
     (by unfold pairUnique; simp [dbSubFx])⟩

/-! ## Subscription-ordering lemmas -/

theorem subMoreRecent_irrefl (a : Subscription) : subMoreRecent a a = false := by
  unfold subMoreRecent
  cases a.purchasedAt <;> simp

theorem subMoreRecent_trans {x y z : Subscription}
    (hxy : subMoreRecent x y = true) (hyz : subMoreRecent y z = true) :
    subMoreRecent x z = true := by
  unfold subMoreRecent at *
  rcases hx : x.purchasedAt with _ | px <;> rcases hy : y.purchasedAt with _ | py <;>
    rcases hz : z.purchasedAt with _ | pz <;> simp [hx, hy, hz] at * <;> omega

theorem subMoreRecent_cross {x y z : Subscription}
    (hxy : subMoreRecent x y = true) (hzy : subMoreRecent z y = false) :
    subMoreRecent x z = true := by
  unfold subMoreRecent at *
  rcases hx : x.purchasedAt with _ | px <;> rcases hy : y.purchasedAt with _ | py <;>
    rcases hz : z.purchasedAt with _ | pz <;> simp [hx, hy, hz] at * <;> omega

/-- The `ORDER BY ... LIMIT 1` fold: starting from a candidate, the fold
returns an element no candidate sorts strictly before. -/
theorem subscription_fold_best (l : List Subscription) :
    ∀ a : Subscription,
      ∃ b, l.foldl
          (fun acc s =>
            match acc with
            | none => some s
            | some a => if subMoreRecent s a then some s else some a)
          (some a) = some b ∧ (b = a ∨ b ∈ l) ∧ subMoreRecent a b = false ∧
        ∀ s ∈ l, subMoreRecent s b = false := by
  induction l with
  | nil =>
    intro a
    exact ⟨a, rfl, Or.inl rfl, subMoreRecent_irrefl a, by simp⟩
  | cons s l ih =>
    intro a
    by_cases hs : subMoreRecent s a = true
    · obtain ⟨b, hfold, hmem, hsb, hall⟩ := ih s
      refine ⟨b, ?_, ?_, ?_, ?_⟩
      · rw [List.foldl_cons]
        dsimp only
        rw [if_pos hs]
        exact hfold
      · rcases hmem with rfl | hm
        · exact Or.inr (List.mem_cons_self _ _)
        · exact Or.inr (List.mem_cons_of_mem _ hm)
      · cases hab : subMoreRecent a b
        · rfl
        · exact absurd (subMoreRecent_trans hs hab) (by simp [hsb])
      · intro t ht
        rcases List.mem_cons.mp ht with rfl | hm
        · exact hsb
        · exact hall t hm
    · have hs' : subMoreRecent s a = false := by
        cases h : subMoreRecent s a
        · rfl
        · exact absurd h hs
      obtain ⟨b, hfold, hmem, hab, hall⟩ := ih a
      refine ⟨b, ?_, ?_, hab, ?_⟩
      · rw [List.foldl_cons]
        dsimp only
        rw [if_neg (by simp [hs'])]
        exact hfold
      · rcases hmem with rfl | hm
        · exact Or.inl rfl
        · exact Or.inr (List.mem_cons_of_mem _ hm)
      · intro t ht
        rcases List.mem_cons.mp ht with rfl | hm
        · cases htb : subMoreRecent t b
          · rfl
          · exact absurd (subMoreRecent_cross htb hab) (by simp [hs'])
        · exact hall t hm

/-- `_get_client_active_coach` returns one of the caller's active, unexpired
subscriptions, maximal under the most-recent ordering. -/
theorem getClientActiveCoach_spec (db : DB) (now uid : Nat) (sub : Subscription)
    (h : getClientActiveCoach db now uid = some sub) :
    sub ∈ db.subscriptions ∧ sub.clientUserId = uid ∧
    subscriptionActive now sub = true ∧
    ∀ s ∈ db.subscriptions, s.clientUserId = uid →
      subscriptionActive now s = true → subMoreRecent s sub = false := by
  unfold getClientActiveCoach at h
  cases hcs : db.subscriptions.filter
      (fun s => s.clientUserId == uid && subscriptionActive now s) with
  | nil =>
    rw [hcs] at h
    simp at h
  | cons s0 rest =>
    rw [hcs, List.foldl_cons] at h
    dsimp only at h
    obtain ⟨b, hfold, hmem, hs0b, hall⟩ := subscription_fold_best rest s0
    rw [hfold] at h
    injection h with hb
    subst hb
    have hbcands : b ∈ db.subscriptions.filter
        (fun s => s.clientUserId == uid && subscriptionActive now s) := by
      rw [hcs]
      rcases hmem with rfl | hm
      · exact List.mem_cons_self _ _
      · exact List.mem_cons_of_mem _ hm
    obtain ⟨hsubs, hpred⟩ := List.mem_filter.mp hbcands
    simp only [Bool.and_eq_true, beq_iff_eq] at hpred
    refine ⟨hsubs, hpred.1, hpred.2, ?_⟩
    intro s hsmem hcl hact
    have hscand : s ∈ db.subscriptions.filter
        (fun t => t.clientUserId == uid && subscriptionActive now t) :=
      List.mem_filter.mpr ⟨hsmem, by simp [hcl, hact]⟩
    rw [hcs] at hscand
    rcases List.mem_cons.mp hscand with rfl | hm
    · exact hs0b
    · exact hall s hm

/-- C9: listing conversations as a client mutates the store iff the client
has zero conversations and holds an active, unexpired subscription: exactly
then the call upserts one fresh conversation with that subscription's coach
(the most recent active subscription wins) and returns the single row with a
null preview, null last-message timestamp and zero unread count; in every
other case the call is a pure read. -/
theorem c9_client_listing_autocreates_conversation :
    (∀ db now uid,
       db.conversations.filter (fun c => c.clientUserId == uid) = [] →
       getClientActiveCoach db now uid = none →
       listClientConversations db now uid = (db, []))
    ∧ (∀ db now uid sub,
        db.conversations.filter (fun c => c.clientUserId == uid) = [] →
        getClientActiveCoach db now uid = some sub →
        listClientConversations db now uid =
          ({ db with
              conversations := db.conversations ++
                [{ id := db.nextConversationId, clientUserId := uid,
                   coachUserId := sub.coachUserId, subscriptionId := some sub.id,
                   updatedAt := now }]
              nextConversationId := db.nextConversationId + 1 },
           [{ id := db.nextConversationId, coachUserId := sub.coachUserId,
              lastMessagePreview := none, lastMessageAt := none,
              unreadCount := 0 }]))
    ∧ (∀ db now uid,
        db.conversations.filter (fun c => c.clientUserId == uid) ≠ [] →
        (listClientConversations db now uid).1 = db)
    ∧ (∀ db now uid sub, getClientActiveCoach db now uid = some sub →
        sub ∈ db.subscriptions ∧ sub.clientUserId = uid ∧
        subscriptionActive now sub = true ∧
        ∀ s ∈ db.subscriptions, s.clientUserId = uid →
          subscriptionActive now s = true → subMoreRecent s sub = false) := by
  refine ⟨?_, ?_, ?_,
    fun db now uid sub h => getClientActiveCoach_spec db now uid sub h⟩
  · intro db now uid hbase hsub
    unfold listClientConversations
    rw [hbase]
    dsimp only
    rw [hsub]
    rfl
  · intro db now uid sub hbase hsub
    have hfind : db.conversations.find?
        (fun c => c.clientUserId == uid && c.coachUserId == sub.coachUserId)
          = none := by
      apply List.find?_eq_none.mpr
      intro c hc
      have hnc := List.filter_eq_nil_iff.mp hbase c hc
      simp only [beq_iff_eq] at hnc
      simp [hnc]
    unfold listClientConversations
    rw [hbase]
    dsimp only
    rw [hsub]
    dsimp only
    unfold upsertConversation
    rw [hfind]
    rfl
  · intro db now uid hbase
    unfold listClientConversations
    dsimp only
    have hlen : (List.insertionSort byLastMessageDesc
        ((db.conversations.filter (fun c => c.clientUserId == uid)).map
          (mkConvItem db))).length =
        (db.conversations.filter (fun c => c.clientUserId == uid)).length := by
      rw [(List.perm_insertionSort _ _).length_eq, List.length_map]
    have hne : ¬(List.insertionSort byLastMessageDesc
        ((db.conversations.filter (fun c => c.clientUserId == uid)).map
          (mkConvItem db))).isEmpty = true := by
      intro hemp
      apply hbase
      apply List.length_eq_zero.mp
      rw [← hlen]
      exact List.length_eq_zero.mpr (List.isEmpty_iff.mp hemp)
    rw [if_neg hne]

/-- Witness for C9 at a concrete input: on a store with one active
subscription and no conversations, the listing call itself creates the
conversation with coach 20 and returns it with null preview and zero
unread. -/
theorem c9_client_listing_autocreates_conversation_witness :
    listClientConversations dbSubFx 7 10 =
      ({ dbSubFx with
          conversations :=
            [{ id := 1, clientUserId := 10, coachUserId := 20,
               subscriptionId := some 1, updatedAt := 7 }]
          nextConversationId := 2 },
       [{ id := 1, coachUserId := 20, lastMessagePreview := none,
          lastMessageAt := none, unreadCount := 0 }]) :=
  c9_client_listing_autocreates_conversation.2.1 dbSubFx 7 10 subFx (by decide)
    (by decide)

/-! ## Pagination lemmas -/

/-- The page query in closed form: the first `limit` candidate rows, plus a
`has_more` flag that is true exactly when more candidates remain. -/
theorem listPage_eq (db : DB) (cid limit : Nat) (before : Option Nat) :
    listPage db cid limit before
      = ((pageCandidates db cid before).take limit,
         decide (limit < (pageCandidates db cid before).length)) := by
  unfold listPage
  dsimp only
  have hlen : ((pageCandidates db cid before).take (limit + 1)).length
      = min (limit + 1) (pageCandidates db cid before).length :=
    List.length_take _ _
  by_cases h : limit < (pageCandidates db cid before).length
  · have h1 : limit < ((pageCandidates db cid before).take (limit + 1)).length := by
      omega
    rw [if_pos h1, List.take_take]
    have hmin : min limit (limit + 1) = limit := by omega
    rw [hmin]
    simp only [Prod.mk.injEq, true_and]
    rw [decide_eq_decide]
    omega
  · have h1 : ¬limit < ((pageCandidates db cid before).take (limit + 1)).length := by
      omega
    rw [if_neg h1]
    have hle : (pageCandidates db cid before).length ≤ limit := Nat.not_lt.mp h
    rw [List.take_of_length_le (by omega : (pageCandidates db cid before).length ≤ limit + 1),
      List.take_of_length_le hle]

theorem pageCandidates_none (db : DB) (cid : Nat) :
    pageCandidates db cid none = convMessagesDesc db cid := rfl

theorem pageCandidates_some (db : DB) (cid b : Nat) (hb : b ≠ 0) :
    pageCandidates db cid (some b)
      = (convMessagesDesc db cid).filter (fun m => m.id < b) := by
  unfold pageCandidates
  dsimp only
  rw [if_pos hb]

theorem convMessagesDesc_sorted (db : DB) (cid : Nat) :
    (convMessagesDesc db cid).Sorted byIdDesc :=
  List.sorted_insertionSort byIdDesc _

theorem convMessagesDesc_perm (db : DB) (cid : Nat) :
    List.Perm (convMessagesDesc db cid)
      (db.messages.filter (fun m => m.conversationId == cid)) :=
  List.perm_insertionSort byIdDesc _

/-- With distinct ids in the conversation, the newest-first listing is
strictly descending on ids. -/
theorem convMessagesDesc_strict (db : DB) (cid : Nat)
    (hnd : ((db.messages.filter (fun m => m.conversationId == cid)).map
      (fun m => m.id)).Nodup) :
    (convMessagesDesc db cid).Pairwise (fun a b => b.id < a.id) := by
  have hs : (convMessagesDesc db cid).Pairwise byIdDesc :=
    convMessagesDesc_sorted db cid
  have hnd2 : ((convMessagesDesc db cid).map (fun m => m.id)).Nodup :=
    ((convMessagesDesc_perm db cid).map (fun m => m.id)).nodup_iff.mpr hnd
  have hne : (convMessagesDesc db cid).Pairwise (fun a b => a.id ≠ b.id) :=
    List.pairwise_map.mp hnd2
  exact (hs.and hne).imp (fun h => lt_of_le_of_ne h.1 (fun he => h.2 he.symm))

/-- In a strictly descending list, filtering strictly below an element keeps
exactly the suffix after that element. -/
theorem filter_lt_getLast {L xs rest : List Message} {m : Message}
    (hpw : L.Pairwise (fun a b => b.id < a.id)) (hdec : L = xs ++ m :: rest) :
    L.filter (fun x => x.id < m.id) = rest := by
  subst hdec
  rw [List.filter_append]
  obtain ⟨hxs, hcons, hcross⟩ := List.pairwise_append.mp hpw
  have h1 : xs.filter (fun x => x.id < m.id) = [] := by
    apply List.filter_eq_nil_iff.mpr
    intro a ha
    have := hcross a ha m (List.mem_cons_self m rest)
    simp
    omega
  rw [h1, List.filter_cons]
  have hm0 : (decide (m.id < m.id)) = false := by simp
  rw [hm0]
  have hrest : rest.filter (fun x => x.id < m.id) = rest := by
    apply List.filter_eq_self.mpr
    intro y hy
    have := (List.pairwise_cons.mp hcons).1 y hy
    simpa using this
  simp [hrest]

/-- The pagination walk from any cursor whose candidate set is a suffix of
the conversation collects exactly that suffix. -/
theorem collectPages_go (db : DB) (cid limit : Nat) (h1 : 1 ≤ limit)
    (hpw : (convMessagesDesc db cid).Pairwise (fun a b => b.id < a.id))
    (hpos : ∀ m ∈ convMessagesDesc db cid, 0 < m.id) :
    ∀ (fuel : Nat) (cursor : Option Nat) (xs suf : List Message),
      convMessagesDesc db cid = xs ++ suf →
      pageCandidates db cid cursor = suf →
      suf.length ≤ fuel →
      collectPages db cid limit cursor fuel = suf := by
  intro fuel
  induction fuel with
  | zero =>
    intro cursor xs suf hdec hcand hlen
    have hsuf : suf = [] := List.length_eq_zero.mp (Nat.le_zero.mp hlen)
    subst hsuf
    rfl
  | succ n ih =>
    intro cursor xs suf hdec hcand hlen
    simp only [collectPages]
    rw [listPage_eq db cid limit cursor, hcand]
    dsimp only
    by_cases hm : limit < suf.length
    · rw [if_pos (by simp [hm])]
      have hpne : suf.take limit ≠ [] := by
        intro hc
        have h0 : (suf.take limit).length = 0 := by rw [hc]; rfl
        rw [List.length_take] at h0
        omega
      rw [List.getLast?_eq_getLast _ hpne]
      dsimp only
      have hdec2 : convMessagesDesc db cid
          = (xs ++ (suf.take limit).dropLast) ++
            (suf.take limit).getLast hpne :: suf.drop limit := by
        rw [hdec]
        conv_lhs => rw [← List.take_append_drop limit suf,
          ← List.dropLast_append_getLast hpne]
        simp [List.append_assoc]
      have hpos' : 0 < ((suf.take limit).getLast hpne).id := by
        apply hpos
        rw [hdec2]
        exact List.mem_append.mpr (Or.inr (List.mem_cons_self _ _))
      have hcand2 : pageCandidates db cid (some ((suf.take limit).getLast hpne).id)
          = suf.drop limit := by
        rw [pageCandidates_some db cid _ (by omega)]
        exact filter_lt_getLast hpw hdec2
      have hlen2 : (suf.drop limit).length ≤ n := by
        rw [List.length_drop]
        omega
      rw [ih (some ((suf.take limit).getLast hpne).id)
        (xs ++ (suf.take limit).dropLast ++ [(suf.take limit).getLast hpne])
        (suf.drop limit) (by rw [hdec2]; simp [List.append_assoc]) hcand2 hlen2]
      exact List.take_append_drop limit suf
    · rw [if_neg (by simp [hm])]
      exact List.take_of_length_le (Nat.not_lt.mp hm)

/-- C8: for every conversation, page size in `[1, 100]` and enough fuel,
walking the pages from no cursor with `before` = the oldest id seen so far
reproduces the conversation newest-first — every message exactly once
(a permutation of the conversation, strictly descending on ids); each
cursor page contains only ids strictly below the cursor; `has_more` is true
exactly when candidates beyond the page remain; and both role-scoped
endpoints serve exactly this page computation once membership passes. -/
theorem c8_pagination_roundtrip (db : DB) (cid limit fuel : Nat)
    (h1 : 1 ≤ limit) (h100 : limit ≤ 100)
    (hnd : ((db.messages.filter (fun m => m.conversationId == cid)).map
      (fun m => m.id)).Nodup)
    (hpos : ∀ m ∈ db.messages.filter (fun m => m.conversationId == cid), 0 < m.id)
    (hfuel : (db.messages.filter (fun m => m.conversationId == cid)).length ≤ fuel) :
    collectPages db cid limit none fuel = convMessagesDesc db cid
    ∧ List.Perm (convMessagesDesc db cid)
        (db.messages.filter (fun m => m.conversationId == cid))
    ∧ (convMessagesDesc db cid).Pairwise (fun a b => b.id < a.id)
    ∧ (∀ b, b ≠ 0 → ∀ m ∈ (listPage db cid limit (some b)).1, m.id < b)
    ∧ (∀ before, (listPage db cid limit before).2 = true ↔
        limit < (pageCandidates db cid before).length)
    ∧ (∀ uid before c, ensureClientConversation db cid uid = .ok c →
        listClientMessages db uid cid limit before
          = .ok (listPage db cid limit before))
    ∧ (∀ uid before c, ensureCoachConversation db cid uid = .ok c →
        listCoachMessages db uid cid limit before
          = .ok (listPage db cid limit before)) := by
  have hperm := convMessagesDesc_perm db cid
  have hpw := convMessagesDesc_strict db cid hnd
  have hposL : ∀ m ∈ convMessagesDesc db cid, 0 < m.id :=
    fun m hm => hpos m (hperm.mem_iff.mp hm)
  refine ⟨?_, hperm, hpw, ?_, ?_, ?_, ?_⟩
  · exact collectPages_go db cid limit h1 hpw hposL fuel none []
      (convMessagesDesc db cid) rfl rfl (by rw [hperm.length_eq]; exact hfuel)
  · intro b hb m hm
    rw [listPage_eq] at hm
    dsimp only at hm
    have hm2 : m ∈ pageCandidates db cid (some b) := List.mem_of_mem_take hm
    rw [pageCandidates_some db cid b hb] at hm2
    simpa using List.of_mem_filter hm2
  · intro before
    rw [listPage_eq]
    simp
  · intro uid before c hens
    unfold listClientMessages
    rw [if_neg (by omega), hens]
  · intro uid before c hens
    unfold listCoachMessages
    rw [if_neg (by omega), hens]

/-- Witness for C8 at a concrete input: with page size 1, three pages
reassemble the three-message fixture conversation newest-first, and the
cursor-2 page reports no more precisely because one candidate remains. -/
theorem c8_pagination_roundtrip_witness :
    collectPages dbPageFx 1 1 none 3 = convMessagesDesc dbPageFx 1 ∧
    ((listPage dbPageFx 1 1 (some 2)).2 = true ↔
      1 < (pageCandidates dbPageFx 1 (some 2)).length) :=
  ⟨(c8_pagination_roundtrip dbPageFx 1 1 3 (by decide) (by decide) (by decide)
      (by decide) (by decide)).1,
   (c8_pagination_roundtrip dbPageFx 1 1 3 (by decide) (by decide) (by decide)
      (by decide) (by decide)).2.2.2.2.1 (some 2)⟩

end Fithub
